import Mathlib

/-!
Verification of the CIFAR benchmark harness in `vitis/main.c` (tensil-zcu104).

The C program is shallowly embedded: bytes (`u8`) become `ℕ` (all values used
are < 256 and no arithmetic overflows), C `float` arithmetic is modelled
exactly over `ℚ`, `size_t` is a 64-bit unsigned integer (the ZCU104 carries a
64-bit Cortex-A53; `(size_t)-1` is `2^64 - 1`), and the fallible external
collaborators (tensil driver, stopwatch) are modelled as an explicit oracle
indexed by the image number.  The benchmark loop becomes explicit state
passing; driver calls and console operations are additionally recorded in
ghost event lists so that ordering properties can be stated.
-/

set_option maxRecDepth 100000

/-- `#define CIFAR_PIXELS_SIZE 1024` from `main.c`. -/
def CIFAR_PIXELS_SIZE : ℕ := 1024

/-- `#define CIFAR_CLASSES_SIZE 10` from `main.c`. -/
def CIFAR_CLASSES_SIZE : ℕ := 10

/-- `(size_t)-1` on the 64-bit target: the value `return -1;` in `argmax`
converts to when the result type is `size_t`. -/
def SIZE_MAX : ℕ := 2 ^ 64 - 1

/-- `#define CHANNEL_TO_FLOAT(v) ((float)v / 255.0)` from `main.c`,
with `float` modelled exactly as `ℚ`. -/
def CHANNEL_TO_FLOAT (v : ℕ) : ℚ := (v : ℚ) / 255

/-- `channel_mean` from `main.c`: single-pass accumulation of
`CHANNEL_TO_FLOAT(buffer[i])` in array order, divided by the element count
(the C function receives `size` and a pointer; the list carries both). -/
def channel_mean (buffer : List ℕ) : ℚ :=
  (buffer.foldl (fun sum v => sum + CHANNEL_TO_FLOAT v) 0) / (buffer.length : ℚ)

/-- The loop of `argmax` from `main.c`: scan the remaining elements, starting
at index `i`, with current maximum value `max` found at index `max_i`;
a strictly greater element updates both. -/
def argmaxGo : List ℚ → ℚ → ℕ → ℕ → ℕ
  | [], _, max_i, _ => max_i
  | b :: rest, max, max_i, i =>
      if b > max then argmaxGo rest b i (i + 1)
      else argmaxGo rest max max_i (i + 1)

/-- `argmax` from `main.c`: for an empty buffer it executes `return -1;`
(silently yielding `SIZE_MAX` on the 64-bit target, no error); otherwise it
scans left to right keeping the first index of the running maximum. -/
def argmax (buffer : List ℚ) : ℕ :=
  match buffer with
  | [] => SIZE_MAX
  | b :: rest => argmaxGo rest b 0 1

/-- `cifar_classes` from `main.c`: the ten class names. -/
def cifar_classes : List String :=
  ["airplane", "automobile", "bird", "cat", "deer",
   "dog", "frog", "horse", "ship", "truck"]

/-- `progress` from `main.c`: the rotating progress glyphs. -/
def progress : List Char := ['-', '\\', '|', '/']

/-- One CIFAR record as read by the loop body of `test_resnet20v2_on_cifar`
(lines 96–106 of `main.c`): a label byte followed by three
`CIFAR_PIXELS_SIZE`-byte channel views into the dataset buffer. -/
structure CifarRecord where
  label : ℕ
  red : List ℕ
  green : List ℕ
  blue : List ℕ
deriving DecidableEq

/-- Reading one record at the current pointer position:
`expected_class = *ptr`, then the three consecutive 1024-byte channels. -/
def readRecord (buf : List ℕ) : CifarRecord :=
  { label := buf.getD 0 0
    red := (buf.drop 1).take CIFAR_PIXELS_SIZE
    green := (buf.drop (1 + CIFAR_PIXELS_SIZE)).take CIFAR_PIXELS_SIZE
    blue := (buf.drop (1 + 2 * CIFAR_PIXELS_SIZE)).take CIFAR_PIXELS_SIZE }

/-- The pointer walk of the benchmark loop: read `n` consecutive records,
each advancing the pointer by `CIFAR_PIXELS_SIZE * 3 + 1` bytes. -/
def decodeRecords : ℕ → List ℕ → List CifarRecord
  | 0, _ => []
  | n + 1, buf => readRecord buf :: decodeRecords n (buf.drop (CIFAR_PIXELS_SIZE * 3 + 1))

/-- The records processed by `test_resnet20v2_on_cifar` for a dataset buffer:
`total_count = fno.fsize / (CIFAR_PIXELS_SIZE * 3 + 1)` records from the
start of the buffer (line 84 of `main.c`). -/
def datasetRecords (buf : List ℕ) : List CifarRecord :=
  decodeRecords (buf.length / (CIFAR_PIXELS_SIZE * 3 + 1)) buf

/-- Modelled from the spec: the "arithmetic mean of the normalized
(divided-by-255) values of that single image's single channel" (spec §3),
written independently of the source's accumulation loop, for comparison
with `channel_mean`. -/
def specChannelMean (channel : List ℕ) : ℚ :=
  ((channel.map fun v : ℕ => (v : ℚ) / 255).sum) / (channel.length : ℚ)

/-- The 3-component pixel vector built at lines 113–115 of `main.c` for
spatial position `j`, given the three channels and their precomputed means. -/
def pixelVector (red green blue : List ℕ) (red_mean green_mean blue_mean : ℚ)
    (j : ℕ) : List ℚ :=
  [CHANNEL_TO_FLOAT (red.getD j 0) - red_mean,
   CHANNEL_TO_FLOAT (green.getD j 0) - green_mean,
   CHANNEL_TO_FLOAT (blue.getD j 0) - blue_mean]

lemma foldl_add_eq_sum (f : ℕ → ℚ) :
    ∀ (l : List ℕ) (a : ℚ), l.foldl (fun sum v => sum + f v) a = a + (l.map f).sum := by
  intro l
  induction l with
  | nil => intro a; simp
  | cons b t ih =>
      intro a
      simp only [List.foldl_cons, List.map_cons, List.sum_cons, ih]
      ring

lemma channel_mean_eq_specChannelMean (buffer : List ℕ) :
    channel_mean buffer = specChannelMean buffer := by
  rw [channel_mean, specChannelMean, foldl_add_eq_sum CHANNEL_TO_FLOAT, zero_add]
  rfl

lemma decodeRecords_length : ∀ (n : ℕ) (buf : List ℕ), (decodeRecords n buf).length = n := by
  intro n
  induction n with
  | zero => intro buf; rfl
  | succ m ih => intro buf; simp [decodeRecords, ih]

lemma readRecord_lengths (buf : List ℕ) (h : CIFAR_PIXELS_SIZE * 3 + 1 ≤ buf.length) :
    (readRecord buf).red.length = CIFAR_PIXELS_SIZE ∧
    (readRecord buf).green.length = CIFAR_PIXELS_SIZE ∧
    (readRecord buf).blue.length = CIFAR_PIXELS_SIZE := by
  simp only [readRecord, List.length_take, List.length_drop]
  simp only [CIFAR_PIXELS_SIZE] at h ⊢
  omega

lemma decodeRecords_wf : ∀ (n : ℕ) (buf : List ℕ),
    n * (CIFAR_PIXELS_SIZE * 3 + 1) ≤ buf.length →
    ∀ r ∈ decodeRecords n buf,
      r.red.length = CIFAR_PIXELS_SIZE ∧ r.green.length = CIFAR_PIXELS_SIZE ∧
      r.blue.length = CIFAR_PIXELS_SIZE := by
  intro n
  induction n with
  | zero => intro buf _ r hr; simp [decodeRecords] at hr
  | succ m ih =>
      intro buf h r hr
      simp only [decodeRecords, List.mem_cons] at hr
      rcases hr with hr | hr
      · subst hr
        refine readRecord_lengths buf ?_
        simp only [CIFAR_PIXELS_SIZE] at h ⊢
        omega
      · refine ih (buf.drop (CIFAR_PIXELS_SIZE * 3 + 1)) ?_ r hr
        simp only [List.length_drop, CIFAR_PIXELS_SIZE] at h ⊢
        omega

lemma argmaxGo_cases : ∀ (l : List ℚ) (max : ℚ) (max_i i : ℕ),
    (argmaxGo l max max_i i = max_i ∧ ∀ k < l.length, l.getD k 0 ≤ max) ∨
    (∃ k < l.length, argmaxGo l max max_i i = i + k ∧ max < l.getD k 0 ∧
      (∀ m < l.length, l.getD m 0 ≤ l.getD k 0) ∧
      (∀ m < k, l.getD m 0 < l.getD k 0)) := by
  intro l
  induction l with
  | nil =>
      intro max max_i i
      left
      exact ⟨rfl, by simp⟩
  | cons b rest ih =>
      intro max max_i i
      by_cases hb : b > max
      · right
        have hgo : argmaxGo (b :: rest) max max_i i = argmaxGo rest b i (i + 1) := by
          simp [argmaxGo, hb]
        rw [gt_iff_lt] at hb
        rcases ih b i (i + 1) with ⟨heq, hall⟩ | ⟨k, hk, heq, hlt, hall, hbefore⟩
        · refine ⟨0, by simp, ?_, ?_, ?_, ?_⟩
          · rw [hgo, heq]; omega
          · simpa using hb
          · intro m hm
            match m with
            | 0 => simp
            | Nat.succ m' =>
                simp only [List.getD_cons_succ, List.getD_cons_zero]
                exact hall m' (by simpa using hm)
          · intro m hm; omega
        · refine ⟨k + 1, by simp only [List.length_cons]; omega, ?_, ?_, ?_, ?_⟩
          · rw [hgo, heq]; omega
          · simp only [List.getD_cons_succ]
            exact lt_trans hb hlt
          · intro m hm
            match m with
            | 0 =>
                simp only [List.getD_cons_zero, List.getD_cons_succ]
                exact le_of_lt hlt
            | Nat.succ m' =>
                simp only [List.getD_cons_succ]
                exact hall m' (by simpa using hm)
          · intro m hm
            match m with
            | 0 =>
                simp only [List.getD_cons_zero, List.getD_cons_succ]
                exact hlt
            | Nat.succ m' =>
                simp only [List.getD_cons_succ]
                exact hbefore m' (by omega)
      · push_neg at hb
        have hgo : argmaxGo (b :: rest) max max_i i = argmaxGo rest max max_i (i + 1) := by
          simp [argmaxGo, not_lt.mpr hb]
        rcases ih max max_i (i + 1) with ⟨heq, hall⟩ | ⟨k, hk, heq, hlt, hall, hbefore⟩
        · left
          refine ⟨by rw [hgo, heq], ?_⟩
          intro m hm
          match m with
          | 0 => simpa using hb
          | Nat.succ m' =>
              simp only [List.getD_cons_succ]
              exact hall m' (by simpa using hm)
        · right
          refine ⟨k + 1, by simp only [List.length_cons]; omega, ?_, ?_, ?_, ?_⟩
          · rw [hgo, heq]; omega
          · simp only [List.getD_cons_succ]; exact hlt
          · intro m hm
            match m with
            | 0 =>
                simp only [List.getD_cons_zero, List.getD_cons_succ]
                exact le_of_lt (lt_of_le_of_lt hb hlt)
            | Nat.succ m' =>
                simp only [List.getD_cons_succ]
                exact hall m' (by simpa using hm)
          · intro m hm
            match m with
            | 0 =>
                simp only [List.getD_cons_zero, List.getD_cons_succ]
                exact lt_of_le_of_lt hb hlt
            | Nat.succ m' =>
                simp only [List.getD_cons_succ]
                exact hbefore m' (by omega)

lemma argmax_firstMax (l : List ℚ) (hl : l ≠ []) :
    argmax l < l.length ∧
    (∀ k < l.length, l.getD k 0 ≤ l.getD (argmax l) 0) ∧
    (∀ k < argmax l, l.getD k 0 < l.getD (argmax l) 0) := by
  match l, hl with
  | b :: rest, _ =>
      have hgo : argmax (b :: rest) = argmaxGo rest b 0 1 := rfl
      rcases argmaxGo_cases rest b 0 1 with ⟨heq, hall⟩ | ⟨k, hk, heq, hlt, hall, hbefore⟩
      · rw [hgo, heq]
        refine ⟨by simp, ?_, by omega⟩
        intro m hm
        match m with
        | 0 => simp
        | Nat.succ m' =>
            simp only [List.getD_cons_succ, List.getD_cons_zero]
            exact hall m' (by simpa using hm)
      · have heq' : argmax (b :: rest) = k + 1 := by rw [hgo, heq]; omega
        rw [heq']
        refine ⟨by simp only [List.length_cons]; omega, ?_, ?_⟩
        · intro m hm
          match m with
          | 0 =>
              simp only [List.getD_cons_zero, List.getD_cons_succ]
              exact le_of_lt hlt
          | Nat.succ m' =>
              simp only [List.getD_cons_succ]
              exact hall m' (by simpa using hm)
        · intro m hm
          match m with
          | 0 =>
              simp only [List.getD_cons_zero, List.getD_cons_succ]
              exact hlt
          | Nat.succ m' =>
              simp only [List.getD_cons_succ]
              exact hbefore m' (by omega)

/-- Operations the benchmark issues through the console collaborator
(`console.h`), recorded as ghost observations. `printProgress` is the per-image
`printf("%06zu: %.2f fps %c\n", ...)` line; `printClassLine` is the
`printf("CIFAR expected class = %s, actual class = %s …")` line, carrying the
two indices used for `cifar_classes[...]` and the looked-up entries (`none`
models an out-of-bounds read of the 10-entry table). -/
inductive ConsoleOp where
  | clearScreen : ConsoleOp
  | setCursorPosition (row col : ℕ) : ConsoleOp
  | printProgress (i : ℕ) (fps : ℚ) (glyph : Char) : ConsoleOp
  | setBackgroundColor (r g b : ℕ) : ConsoleOp
  | resetBackgroundColor : ConsoleOp
  | setForegroundColor (r g b : ℕ) : ConsoleOp
  | resetForegroundColor : ConsoleOp
  | printClassLine (expected actual : ℕ)
      (expectedName actualName : Option String) : ConsoleOp
deriving DecidableEq

/-- Calls the benchmark issues to the tensil driver and the stopwatch,
recorded as ghost observations in program order. -/
inductive DriverEvent where
  | loadInput (i j : ℕ) : DriverEvent
  | stopwatchStart (i : ℕ) : DriverEvent
  | runModel (i : ℕ) : DriverEvent
  | stopwatchStop (i : ℕ) : DriverEvent
  | getOutput (i : ℕ) : DriverEvent
  | printOutput (i : ℕ) : DriverEvent
deriving DecidableEq

/-- The behaviour of the external collaborators (tensil driver and stopwatch)
during one benchmark run, indexed by the image number `i` (the loop visits
images strictly in order, so any stateful driver behaviour is captured by
this indexing).  `none` / `Except.ok` model `TENSIL_ERROR_NONE`; `some e` /
`Except.error e` model a nonzero `tensil_error_t`. -/
structure Oracle where
  loadInput : ℕ → ℕ → List ℚ → Option ℕ
  stopwatchStart : ℕ → Option ℕ
  runModel : ℕ → Option ℕ
  elapsedSeconds : ℕ → ℚ
  getOutput : ℕ → Except ℕ (Fin CIFAR_CLASSES_SIZE → ℚ)
  printOutputVectors : ℕ → Option ℕ

/-- The inner `for (j = 0; j < CIFAR_PIXELS_SIZE; j++)` loop of lines 112–122:
build the pixel vector for position `j` and stage it through
`tensil_driver_load_model_input_vector_scalars`; abort on the first failure.
`fuel` counts the remaining iterations, `acc` accumulates the ghost events. -/
def loadInputLoop (o : Oracle) (i : ℕ) (red green blue : List ℕ)
    (red_mean green_mean blue_mean : ℚ) :
    ℕ → ℕ → List DriverEvent → Option ℕ × List DriverEvent
  | 0, _, acc => (none, acc)
  | fuel + 1, j, acc =>
      match o.loadInput i j (pixelVector red green blue red_mean green_mean blue_mean j) with
      | some e => (some e, acc ++ [DriverEvent.loadInput i j])
      | none => loadInputLoop o i red green blue red_mean green_mean blue_mean fuel (j + 1)
          (acc ++ [DriverEvent.loadInput i j])

/-- The `if (print_images)` block of lines 152–191: cursor home, progress
line, and — every 100th image — the pixel preview, the diagnostic
`tensil_driver_print_model_output_vectors` call (which can fail and abort the
run), and the colour-coded class line indexing `cifar_classes` with the raw
`expected_class` and `actual_class` values. -/
def reportImage (o : Oracle) (i : ℕ) (seconds : ℚ) (red green blue : List ℕ)
    (expected_class actual_class : ℕ) :
    Option ℕ × List ConsoleOp × List DriverEvent :=
  let headerOps : List ConsoleOp :=
    [ConsoleOp.setCursorPosition 1 1,
     ConsoleOp.printProgress i (1 / seconds) (progress.getD (i % 4) ' ')]
  if i % 100 = 0 then
    let previewOps : List ConsoleOp :=
      (List.range CIFAR_PIXELS_SIZE).map fun j =>
        ConsoleOp.setBackgroundColor (red.getD j 0) (green.getD j 0) (blue.getD j 0)
    match o.printOutputVectors i with
    | some e => (some e, headerOps ++ previewOps ++ [ConsoleOp.resetBackgroundColor],
        [DriverEvent.printOutput i])
    | none =>
        let fg : ConsoleOp :=
          if actual_class = expected_class then ConsoleOp.setForegroundColor 0 255 0
          else ConsoleOp.setForegroundColor 255 0 0
        (none,
         headerOps ++ previewOps ++ [ConsoleOp.resetBackgroundColor, fg,
           ConsoleOp.printClassLine expected_class actual_class
             cifar_classes[expected_class]? cifar_classes[actual_class]?,
           ConsoleOp.resetForegroundColor],
         [DriverEvent.printOutput i])
  else (none, headerOps, [])

/-- The mutable state of the benchmark loop of `test_resnet20v2_on_cifar`:
the run statistics (`misclass_count`, `total_seconds`), plus ghost
observation lists (console operations, driver/stopwatch calls, and the
sequence of predicted classes). -/
structure LoopState where
  misclass_count : ℕ
  total_seconds : ℚ
  consoleOps : List ConsoleOp
  events : List DriverEvent
  trace : List ℕ
deriving DecidableEq

/-- The `for (i = 0; i < total_count; i++)` loop of lines 95–192 of `main.c`:
per image, compute the three channel means, stage the 1024 pixel vectors,
time the `tensil_driver_run` call, fetch and classify the output, update the
statistics, optionally report, and abort (`goto cleanup`) on the first
failing call. -/
def runLoop (o : Oracle) (print_images : Bool) :
    List CifarRecord → ℕ → LoopState → Option ℕ × LoopState
  | [], _, st => (none, st)
  | r :: rest, i, st =>
      match loadInputLoop o i r.red r.green r.blue (channel_mean r.red) (channel_mean r.green)
          (channel_mean r.blue) CIFAR_PIXELS_SIZE 0 [] with
      | (some e, evs) => (some e, { st with events := st.events ++ evs })
      | (none, evs) =>
          match o.stopwatchStart i with
          | some e => (some e, { st with
              events := st.events ++ evs ++ [DriverEvent.stopwatchStart i] })
          | none =>
              match o.runModel i with
              | some e => (some e, { st with
                  events := st.events ++ evs ++ [DriverEvent.stopwatchStart i,
                    DriverEvent.runModel i] })
              | none =>
                  let seconds := o.elapsedSeconds i
                  match o.getOutput i with
                  | Except.error e => (some e, { st with
                      total_seconds := st.total_seconds + seconds,
                      events := st.events ++ evs ++ [DriverEvent.stopwatchStart i,
                        DriverEvent.runModel i, DriverEvent.stopwatchStop i,
                        DriverEvent.getOutput i] })
                  | Except.ok result =>
                      let actual_class := argmax (List.ofFn result)
                      let st1 : LoopState := { st with
                        total_seconds := st.total_seconds + seconds,
                        misclass_count := if actual_class ≠ r.label then st.misclass_count + 1
                          else st.misclass_count,
                        events := st.events ++ evs ++ [DriverEvent.stopwatchStart i,
                          DriverEvent.runModel i, DriverEvent.stopwatchStop i,
                          DriverEvent.getOutput i],
                        trace := st.trace ++ [actual_class] }
                      if print_images then
                        match reportImage o i seconds r.red r.green r.blue r.label actual_class with
                        | (some e, ops, evs2) => (some e, { st1 with
                            consoleOps := st1.consoleOps ++ ops,
                            events := st1.events ++ evs2 })
                        | (none, ops, evs2) =>
                            runLoop o print_images rest (i + 1) { st1 with
                              consoleOps := st1.consoleOps ++ ops,
                              events := st1.events ++ evs2 }
                      else runLoop o print_images rest (i + 1) st1

/-- The observable outcome of one `test_resnet20v2_on_cifar` call:
the returned `tensil_error_t`, the final statistics, the ghost observation
lists, and the final `printf` summary line (count, accuracy, mean fps),
which is emitted only when no error occurred. -/
structure RunResult where
  error : Option ℕ
  total_count : ℕ
  misclass_count : ℕ
  total_seconds : ℚ
  consoleOps : List ConsoleOp
  events : List DriverEvent
  trace : List ℕ
deriving DecidableEq

/-- `test_resnet20v2_on_cifar` from `main.c`, from the point where the
dataset file content sits in the buffer (the FatFs staging at lines 62–82 is
an external storage concern): compute `total_count`, run the benchmark loop
over the decoded records, perform the reporting cleanup (screen clear,
cursor home — only under `print_images`), and print the summary line only
when the loop finished without error. -/
def test_resnet20v2_on_cifar (o : Oracle) (buf : List ℕ) (print_images : Bool) : RunResult :=
  let total_count := buf.length / (CIFAR_PIXELS_SIZE * 3 + 1)
  let records := decodeRecords total_count buf
  let init : LoopState :=
    { misclass_count := 0
      total_seconds := 0
      consoleOps := if print_images then [ConsoleOp.clearScreen] else []
      events := []
      trace := [] }
  let res := runLoop o print_images records 0 init
  { error := res.1
    total_count := total_count
    misclass_count := res.2.misclass_count
    total_seconds := res.2.total_seconds
    consoleOps := res.2.consoleOps ++
      (if print_images then [ConsoleOp.clearScreen, ConsoleOp.setCursorPosition 1 1] else [])
    events := res.2.events
    trace := res.2.trace }

/-- The final `printf` of lines 200–203 of `main.c`: emitted only when no
error occurred, it reports the image count, the accuracy
`1 - misclass_count/total_count`, and the mean throughput
`total_count/total_seconds`, all read from the run's final state. -/
def summaryLine (res : RunResult) : Option (ℕ × ℚ × ℚ) :=
  if res.error = none then
    some (res.total_count, 1 - (res.misclass_count : ℚ) / (res.total_count : ℚ),
      (res.total_count : ℚ) / res.total_seconds)
  else none

/-- The loop state after one fully successful image: statistics updated once,
the image's driver calls appended in program order, and (under
`print_images`) the reporting output appended. -/
def stepState (o : Oracle) (p : Bool) (i : ℕ) (st : LoopState) (r : CifarRecord)
    (result : Fin CIFAR_CLASSES_SIZE → ℚ) : LoopState :=
  let evs := (loadInputLoop o i r.red r.green r.blue (channel_mean r.red) (channel_mean r.green)
      (channel_mean r.blue) CIFAR_PIXELS_SIZE 0 []).2
  let seconds := o.elapsedSeconds i
  let actual_class := argmax (List.ofFn result)
  let rep := reportImage o i seconds r.red r.green r.blue r.label actual_class
  { misclass_count := if actual_class ≠ r.label then st.misclass_count + 1 else st.misclass_count
    total_seconds := st.total_seconds + seconds
    consoleOps := st.consoleOps ++ (if p then rep.2.1 else [])
    events := st.events ++ evs ++ [DriverEvent.stopwatchStart i, DriverEvent.runModel i,
      DriverEvent.stopwatchStop i, DriverEvent.getOutput i] ++ (if p then rep.2.2 else [])
    trace := st.trace ++ [actual_class] }

lemma reportImage_fst_none (o : Oracle) (i : ℕ) (seconds : ℚ) (red green blue : List ℕ)
    (ec ac : ℕ) (hp : o.printOutputVectors i = none) :
    (reportImage o i seconds red green blue ec ac).1 = none := by
  unfold reportImage
  by_cases h100 : i % 100 = 0 <;> simp [h100, hp]

lemma runLoop_nil (o : Oracle) (p : Bool) (i : ℕ) (st : LoopState) :
    runLoop o p [] i st = (none, st) := rfl

lemma runLoop_cons_loadfail (o : Oracle) (p : Bool) (i : ℕ) (st : LoopState)
    (r : CifarRecord) (rest : List CifarRecord) (e : ℕ) (evs : List DriverEvent)
    (hl : loadInputLoop o i r.red r.green r.blue (channel_mean r.red) (channel_mean r.green)
        (channel_mean r.blue) CIFAR_PIXELS_SIZE 0 [] = (some e, evs)) :
    runLoop o p (r :: rest) i st = (some e, { st with events := st.events ++ evs }) := by
  simp only [runLoop, hl]

lemma runLoop_cons_swfail (o : Oracle) (p : Bool) (i : ℕ) (st : LoopState)
    (r : CifarRecord) (rest : List CifarRecord) (e : ℕ) (evs : List DriverEvent)
    (hl : loadInputLoop o i r.red r.green r.blue (channel_mean r.red) (channel_mean r.green)
        (channel_mean r.blue) CIFAR_PIXELS_SIZE 0 [] = (none, evs))
    (hsw : o.stopwatchStart i = some e) :
    runLoop o p (r :: rest) i st = (some e, { st with
      events := st.events ++ evs ++ [DriverEvent.stopwatchStart i] }) := by
  simp only [runLoop, hl, hsw]

lemma runLoop_cons_runfail (o : Oracle) (p : Bool) (i : ℕ) (st : LoopState)
    (r : CifarRecord) (rest : List CifarRecord) (e : ℕ) (evs : List DriverEvent)
    (hl : loadInputLoop o i r.red r.green r.blue (channel_mean r.red) (channel_mean r.green)
        (channel_mean r.blue) CIFAR_PIXELS_SIZE 0 [] = (none, evs))
    (hsw : o.stopwatchStart i = none) (hrun : o.runModel i = some e) :
    runLoop o p (r :: rest) i st = (some e, { st with
      events := st.events ++ evs ++ [DriverEvent.stopwatchStart i, DriverEvent.runModel i] }) := by
  simp only [runLoop, hl, hsw, hrun]

lemma runLoop_cons_outfail (o : Oracle) (p : Bool) (i : ℕ) (st : LoopState)
    (r : CifarRecord) (rest : List CifarRecord) (e : ℕ) (evs : List DriverEvent)
    (hl : loadInputLoop o i r.red r.green r.blue (channel_mean r.red) (channel_mean r.green)
        (channel_mean r.blue) CIFAR_PIXELS_SIZE 0 [] = (none, evs))
    (hsw : o.stopwatchStart i = none) (hrun : o.runModel i = none)
    (hout : o.getOutput i = Except.error e) :
    runLoop o p (r :: rest) i st = (some e, { st with
      total_seconds := st.total_seconds + o.elapsedSeconds i,
      events := st.events ++ evs ++ [DriverEvent.stopwatchStart i, DriverEvent.runModel i,
        DriverEvent.stopwatchStop i, DriverEvent.getOutput i] }) := by
  simp only [runLoop, hl, hsw, hrun, hout]

lemma runLoop_cons_success (o : Oracle) (p : Bool) (i : ℕ) (st : LoopState)
    (r : CifarRecord) (rest : List CifarRecord) (evs : List DriverEvent)
    (result : Fin CIFAR_CLASSES_SIZE → ℚ)
    (hl : loadInputLoop o i r.red r.green r.blue (channel_mean r.red) (channel_mean r.green)
        (channel_mean r.blue) CIFAR_PIXELS_SIZE 0 [] = (none, evs))
    (hsw : o.stopwatchStart i = none) (hrun : o.runModel i = none)
    (hout : o.getOutput i = Except.ok result)
    (hp : p = true → o.printOutputVectors i = none) :
    runLoop o p (r :: rest) i st = runLoop o p rest (i + 1) (stepState o p i st r result) := by
  cases p with
  | false =>
      simp only [runLoop, hl, hsw, hrun, hout, Bool.false_eq_true, if_false]
      congr 1
      simp only [stepState, hl, Bool.false_eq_true, if_false, List.append_nil]
  | true =>
      have hfst := reportImage_fst_none o i (o.elapsedSeconds i) r.red r.green r.blue r.label
        (argmax (List.ofFn result)) (hp rfl)
      cases hR : reportImage o i (o.elapsedSeconds i) r.red r.green r.blue r.label
          (argmax (List.ofFn result)) with
      | mk err pair =>
          cases pair with
          | mk ops evs2 =>
              rw [hR] at hfst
              simp only at hfst
              subst hfst
              simp only [runLoop, hl, hsw, hrun, hout, if_true, hR]
              congr 1
              simp only [stepState, hl, hR, if_true, List.append_assoc]

lemma loadInputLoop_fst_none (o : Oracle) (i : ℕ) (red green blue : List ℕ)
    (rm gm bm : ℚ) (hload : ∀ j v, o.loadInput i j v = none) :
    ∀ (fuel j : ℕ) (acc : List DriverEvent),
      (loadInputLoop o i red green blue rm gm bm fuel j acc).1 = none := by
  intro fuel
  induction fuel with
  | zero => intro j acc; rfl
  | succ n ih =>
      intro j acc
      simp only [loadInputLoop, hload]
      exact ih (j + 1) _

lemma loadInputLoop_events (o : Oracle) (i : ℕ) (red green blue : List ℕ) (rm gm bm : ℚ) :
    ∀ (fuel j : ℕ) (acc : List DriverEvent),
      ∀ ev ∈ (loadInputLoop o i red green blue rm gm bm fuel j acc).2,
        ev ∈ acc ∨ ∃ jj, ev = DriverEvent.loadInput i jj := by
  intro fuel
  induction fuel with
  | zero => intro j acc ev hev; exact Or.inl hev
  | succ n ih =>
      intro j acc ev hev
      simp only [loadInputLoop] at hev
      cases hLI : o.loadInput i j (pixelVector red green blue rm gm bm j) with
      | some e =>
          rw [hLI] at hev
          simp only at hev
          rcases List.mem_append.mp hev with h | h
          · exact Or.inl h
          · exact Or.inr ⟨j, by simpa using h⟩
      | none =>
          rw [hLI] at hev
          simp only at hev
          rcases ih (j + 1) (acc ++ [DriverEvent.loadInput i j]) ev hev with h | h
          · rcases List.mem_append.mp h with h | h
            · exact Or.inl h
            · exact Or.inr ⟨j, by simpa using h⟩
          · exact Or.inr h

lemma range_sum_shift (f : ℕ → ℚ) (n i : ℕ) :
    ((List.range (n + 1)).map fun k => f (i + k)).sum =
      f i + ((List.range n).map fun k => f (i + 1 + k)).sum := by
  rw [List.range_succ_eq_map]
  simp only [List.map_cons, List.sum_cons, List.map_map, Nat.add_zero]
  have hc : ((fun k => f (i + k)) ∘ Nat.succ) = fun k => f (i + 1 + k) := by
    funext k
    simp only [Function.comp_apply]
    congr 1
    omega
  rw [hc]

lemma runLoop_all_success (o : Oracle) (p : Bool)
    (hload : ∀ i j v, o.loadInput i j v = none)
    (hsw : ∀ i, o.stopwatchStart i = none)
    (hrun : ∀ i, o.runModel i = none)
    (hout : ∀ i, ∃ f, o.getOutput i = Except.ok f)
    (hprint : ∀ i, o.printOutputVectors i = none) :
    ∀ (recs : List CifarRecord) (i : ℕ) (st : LoopState),
      (runLoop o p recs i st).1 = none ∧
      (runLoop o p recs i st).2.total_seconds =
        st.total_seconds + ((List.range recs.length).map fun k => o.elapsedSeconds (i + k)).sum := by
  intro recs
  induction recs with
  | nil => intro i st; simp [runLoop_nil]
  | cons r rest ih =>
      intro i st
      have hfst := loadInputLoop_fst_none o i r.red r.green r.blue (channel_mean r.red)
        (channel_mean r.green) (channel_mean r.blue) (hload i) CIFAR_PIXELS_SIZE 0 []
      obtain ⟨f, hf⟩ := hout i
      have hpair : loadInputLoop o i r.red r.green r.blue (channel_mean r.red)
          (channel_mean r.green) (channel_mean r.blue) CIFAR_PIXELS_SIZE 0 [] =
          (none, (loadInputLoop o i r.red r.green r.blue (channel_mean r.red)
            (channel_mean r.green) (channel_mean r.blue) CIFAR_PIXELS_SIZE 0 []).2) :=
        Prod.ext hfst rfl
      have hstep := runLoop_cons_success o p i st r rest _ f hpair (hsw i) (hrun i) hf
        (fun _ => hprint i)
      rw [hstep]
      obtain ⟨h1, h2⟩ := ih (i + 1) (stepState o p i st r f)
      refine ⟨h1, ?_⟩
      rw [h2]
      have hsec : (stepState o p i st r f).total_seconds =
          st.total_seconds + o.elapsedSeconds i := by
        simp [stepState]
      rw [hsec, List.length_cons, range_sum_shift (o.elapsedSeconds)]
      ring

lemma reportImage_printfail (o : Oracle) (i : ℕ) (seconds : ℚ) (red green blue : List ℕ)
    (ec ac : ℕ) (e : ℕ) (h100 : i % 100 = 0) (hp : o.printOutputVectors i = some e) :
    (reportImage o i seconds red green blue ec ac).1 = some e := by
  unfold reportImage
  simp [h100, hp]

lemma reportImage_classLine (o : Oracle) (i : ℕ) (seconds : ℚ) (red green blue : List ℕ)
    (ec ac : ℕ) (h100 : i % 100 = 0) (hp : o.printOutputVectors i = none) :
    ConsoleOp.printClassLine ec ac cifar_classes[ec]? cifar_classes[ac]? ∈
      (reportImage o i seconds red green blue ec ac).2.1 := by
  unfold reportImage
  simp [h100, hp]

lemma runLoop_cons_printfail (o : Oracle) (i : ℕ) (st : LoopState)
    (r : CifarRecord) (rest : List CifarRecord) (e : ℕ) (evs : List DriverEvent)
    (result : Fin CIFAR_CLASSES_SIZE → ℚ)
    (hl : loadInputLoop o i r.red r.green r.blue (channel_mean r.red) (channel_mean r.green)
        (channel_mean r.blue) CIFAR_PIXELS_SIZE 0 [] = (none, evs))
    (hsw : o.stopwatchStart i = none) (hrun : o.runModel i = none)
    (hout : o.getOutput i = Except.ok result)
    (h100 : i % 100 = 0) (hp : o.printOutputVectors i = some e) :
    (runLoop o true (r :: rest) i st).1 = some e := by
  have hrf := reportImage_printfail o i (o.elapsedSeconds i) r.red r.green r.blue r.label
    (argmax (List.ofFn result)) e h100 hp
  cases hR : reportImage o i (o.elapsedSeconds i) r.red r.green r.blue r.label
      (argmax (List.ofFn result)) with
  | mk err pair =>
      cases pair with
      | mk ops evs2 =>
          rw [hR] at hrf
          simp only at hrf
          subst hrf
          simp only [runLoop, hl, hsw, hrun, hout, if_true, hR]

lemma runLoop_print_agnostic (o : Oracle) (hprint : ∀ i, o.printOutputVectors i = none) :
    ∀ (recs : List CifarRecord) (i : ℕ) (st1 st2 : LoopState),
      st1.misclass_count = st2.misclass_count →
      st1.total_seconds = st2.total_seconds →
      st1.trace = st2.trace →
      (runLoop o true recs i st1).1 = (runLoop o false recs i st2).1 ∧
      (runLoop o true recs i st1).2.misclass_count =
        (runLoop o false recs i st2).2.misclass_count ∧
      (runLoop o true recs i st1).2.total_seconds =
        (runLoop o false recs i st2).2.total_seconds ∧
      (runLoop o true recs i st1).2.trace = (runLoop o false recs i st2).2.trace := by
  intro recs
  induction recs with
  | nil =>
      intro i st1 st2 h1 h2 h3
      simp [runLoop_nil, h1, h2, h3]
  | cons r rest ih =>
      intro i st1 st2 h1 h2 h3
      cases hLL : loadInputLoop o i r.red r.green r.blue (channel_mean r.red)
          (channel_mean r.green) (channel_mean r.blue) CIFAR_PIXELS_SIZE 0 [] with
      | mk res evs =>
          cases res with
          | some e =>
              rw [runLoop_cons_loadfail o true i st1 r rest e evs hLL,
                  runLoop_cons_loadfail o false i st2 r rest e evs hLL]
              exact ⟨rfl, h1, h2, h3⟩
          | none =>
              cases hsw : o.stopwatchStart i with
              | some e =>
                  rw [runLoop_cons_swfail o true i st1 r rest e evs hLL hsw,
                      runLoop_cons_swfail o false i st2 r rest e evs hLL hsw]
                  exact ⟨rfl, h1, h2, h3⟩
              | none =>
                  cases hrun : o.runModel i with
                  | some e =>
                      rw [runLoop_cons_runfail o true i st1 r rest e evs hLL hsw hrun,
                          runLoop_cons_runfail o false i st2 r rest e evs hLL hsw hrun]
                      exact ⟨rfl, h1, h2, h3⟩
                  | none =>
                      cases hout : o.getOutput i with
                      | error e =>
                          rw [runLoop_cons_outfail o true i st1 r rest e evs hLL hsw hrun hout,
                              runLoop_cons_outfail o false i st2 r rest e evs hLL hsw hrun hout]
                          exact ⟨rfl, h1, by simp [h2], h3⟩
                      | ok result =>
                          rw [runLoop_cons_success o true i st1 r rest evs result hLL hsw hrun
                                hout (fun _ => hprint i),
                              runLoop_cons_success o false i st2 r rest evs result hLL hsw hrun
                                hout (fun h => nomatch h)]
                          exact ih (i + 1) _ _ (by simp [stepState, h1]) (by simp [stepState, h2])
                            (by simp [stepState, h3])

/-- A concrete all-black test record (label 3), used to instantiate theorems. -/
def sampleRecord : CifarRecord :=
  { label := 3
    red := List.replicate 1024 0
    green := List.replicate 1024 0
    blue := List.replicate 1024 0 }

/-- C1: for every image record and every spatial position `j` in `[0, 1024)`
and every channel, the normalized feature component built at lines 113–115 of
`main.c` equals `channel[c][j]/255` minus that image's own channel-`c` mean
of the normalized values.  The mean (`channel_mean`, shown equal to the
spec's arithmetic mean `specChannelMean`) is a pure function of that single
record's single channel, so it is recomputed independently for every image
and channel — no dataset-wide statistic and no caching across images can
enter the value. -/
theorem C1_normalized_pixel (r : CifarRecord) (j : ℕ)
    (hr : r.red.length = CIFAR_PIXELS_SIZE) (hg : r.green.length = CIFAR_PIXELS_SIZE)
    (hb : r.blue.length = CIFAR_PIXELS_SIZE) (hj : j < CIFAR_PIXELS_SIZE) :
    pixelVector r.red r.green r.blue (channel_mean r.red) (channel_mean r.green)
        (channel_mean r.blue) j =
      [(r.red.getD j 0 : ℚ) / 255 - specChannelMean r.red,
       (r.green.getD j 0 : ℚ) / 255 - specChannelMean r.green,
       (r.blue.getD j 0 : ℚ) / 255 - specChannelMean r.blue] := by
  simp [pixelVector, CHANNEL_TO_FLOAT, channel_mean_eq_specChannelMean]

theorem C1_witness :
    pixelVector sampleRecord.red sampleRecord.green sampleRecord.blue
        (channel_mean sampleRecord.red) (channel_mean sampleRecord.green)
        (channel_mean sampleRecord.blue) 0 =
      [(sampleRecord.red.getD 0 0 : ℚ) / 255 - specChannelMean sampleRecord.red,
       (sampleRecord.green.getD 0 0 : ℚ) / 255 - specChannelMean sampleRecord.green,
       (sampleRecord.blue.getD 0 0 : ℚ) / 255 - specChannelMean sampleRecord.blue] :=
  C1_normalized_pixel sampleRecord 0 (by simp [sampleRecord, CIFAR_PIXELS_SIZE])
    (by simp [sampleRecord, CIFAR_PIXELS_SIZE]) (by simp [sampleRecord, CIFAR_PIXELS_SIZE])
    (by simp [CIFAR_PIXELS_SIZE])

/-- C2: for every 1024-byte channel buffer, `channel_mean` (a single
left-to-right pass accumulating `byte/255` and dividing by the count)
returns the arithmetic mean of `byte/255` over all 1024 entries. -/
theorem C2_channel_mean_is_arithmetic_mean (buffer : List ℕ)
    (h : buffer.length = CIFAR_PIXELS_SIZE) :
    channel_mean buffer =
      ((buffer.map fun v : ℕ => (v : ℚ) / 255).sum) / (1024 : ℚ) := by
  rw [channel_mean_eq_specChannelMean, specChannelMean, h]
  norm_num [CIFAR_PIXELS_SIZE]

theorem C2_witness :
    channel_mean (List.replicate 1024 7) =
      (((List.replicate 1024 7 : List ℕ).map fun v : ℕ => (v : ℚ) / 255).sum) / (1024 : ℚ) :=
  C2_channel_mean_is_arithmetic_mean (List.replicate 1024 7) (by simp [CIFAR_PIXELS_SIZE])

/-- C3: for every dataset buffer of length `L`, the number of records decoded
and processed equals `⌊L / 3073⌋`; each decoded record is one label byte
followed by three 1024-byte channels; an empty buffer yields zero records
(trailing partial bytes are simply never visited — no error path exists in
the decoder); and the benchmark's `total_count` is that same quotient. -/
theorem C3_record_count (buf : List ℕ) :
    (datasetRecords buf).length = buf.length / 3073 ∧
    (∀ r ∈ datasetRecords buf,
      r.red.length = 1024 ∧ r.green.length = 1024 ∧ r.blue.length = 1024) ∧
    datasetRecords [] = [] ∧
    (∀ (o : Oracle) (p : Bool),
      (test_resnet20v2_on_cifar o buf p).total_count = buf.length / 3073) := by
  refine ⟨?_, ?_, rfl, ?_⟩
  · rw [datasetRecords, decodeRecords_length]
    norm_num [CIFAR_PIXELS_SIZE]
  · intro r hr
    have h := decodeRecords_wf (buf.length / (CIFAR_PIXELS_SIZE * 3 + 1)) buf
      (Nat.div_mul_le_self _ _) r hr
    simpa [CIFAR_PIXELS_SIZE] using h
  · intro o p
    rfl

theorem C3_witness :
    (datasetRecords (List.replicate 3073 5)).length =
      (List.replicate 3073 5 : List ℕ).length / 3073 ∧
    (readRecord (List.replicate 3073 5)).red.length = 1024 := by
  have h := C3_record_count (List.replicate 3073 5)
  refine ⟨h.1, (h.2.1 (readRecord (List.replicate 3073 5)) ?_).1⟩
  have hds : datasetRecords (List.replicate 3073 5) = [readRecord (List.replicate 3073 5)] := by
    have hlen : (List.replicate 3073 (5 : ℕ)).length / (CIFAR_PIXELS_SIZE * 3 + 1) = 1 := by
      rw [List.length_replicate]
      norm_num [CIFAR_PIXELS_SIZE]
    unfold datasetRecords
    rw [hlen]
    rfl
  rw [hds]
  exact List.mem_singleton.mpr rfl

/-- C4: for every non-empty score vector, `argmax` returns an in-range index
holding a maximal value, and every strictly earlier position holds a strictly
smaller value — so a repeated maximum resolves to its first (lowest) index,
because the scan uses a strict greater-than comparison; in particular on
`[0.5, 0.9, 0.9, 0.1]` it returns 1, not 2. -/
theorem C4_argmax_first_max :
    (∀ l : List ℚ, l ≠ [] →
      argmax l < l.length ∧
      (∀ k < l.length, l.getD k 0 ≤ l.getD (argmax l) 0) ∧
      (∀ k < argmax l, l.getD k 0 < l.getD (argmax l) 0)) ∧
    argmax [(1 : ℚ) / 2, 9 / 10, 9 / 10, 1 / 10] = 1 := by
  refine ⟨argmax_firstMax, ?_⟩
  norm_num [argmax, argmaxGo]

theorem C4_witness :
    argmax [(1 : ℚ) / 2, 9 / 10, 9 / 10, 1 / 10] <
      ([(1 : ℚ) / 2, 9 / 10, 9 / 10, 1 / 10] : List ℚ).length :=
  (C4_argmax_first_max.1 [(1 : ℚ) / 2, 9 / 10, 9 / 10, 1 / 10] (by simp)).1

/-- C5: contrary to the claim (which matches the spec's stated intent, §4.4
and §9 of the spec), the code does NOT report an error for an empty score
vector: `argmax(0, buffer)` executes `return -1;`, whose value as `size_t`
is the sentinel `SIZE_MAX = 2^64 - 1` — an index far outside the class
domain `[0, CIFAR_CLASSES_SIZE)` returned silently, with no error channel. -/
theorem C5_empty_argmax_sentinel :
    argmax ([] : List ℚ) = SIZE_MAX ∧ SIZE_MAX = 2 ^ 64 - 1 ∧
      CIFAR_CLASSES_SIZE ≤ SIZE_MAX := by
  refine ⟨rfl, rfl, by norm_num [CIFAR_CLASSES_SIZE, SIZE_MAX]⟩

/-- The initial loop state with no observations. -/
def emptyState : LoopState :=
  { misclass_count := 0, total_seconds := 0, consoleOps := [], events := [], trace := [] }

/-- An oracle whose input-staging call fails immediately with error 5. -/
def failingLoadOracle : Oracle :=
  { loadInput := fun _ _ _ => some 5
    stopwatchStart := fun _ => none
    runModel := fun _ => none
    elapsedSeconds := fun _ => 1
    getOutput := fun _ => Except.ok fun _ => 0
    printOutputVectors := fun _ => none }

/-- An oracle for which every call succeeds; image 0 takes 1/10 s and every
later image 1/5 s. -/
def timedOracle : Oracle :=
  { loadInput := fun _ _ _ => none
    stopwatchStart := fun _ => none
    runModel := fun _ => none
    elapsedSeconds := fun i => if i = 0 then 1 / 10 else 1 / 5
    getOutput := fun _ => Except.ok fun _ => 0
    printOutputVectors := fun _ => none }

/-- An oracle that succeeds everywhere except the diagnostic
`print_model_output_vectors` call, which fails with error 9. -/
def failingPrintOracle : Oracle :=
  { loadInput := fun _ _ _ => none
    stopwatchStart := fun _ => none
    runModel := fun _ => none
    elapsedSeconds := fun _ => 1
    getOutput := fun _ => Except.ok fun _ => 0
    printOutputVectors := fun _ => some 9 }

/-- C6: the benchmark is fail-fast.  (a) If input staging fails with error
`e`, the loop returns `e` at once with the statistics untouched, for every
remaining record list — no retry, no skipping, no default result.  (b) The
same holds when the execution call fails, and (c) when output retrieval
fails (there the already-measured execution time has been accumulated, but
the image is not counted in `misclass_count` and no prediction is recorded).
(d) A failed run emits no summary line, and (e) with live reporting enabled
the console operations end with the cleanup pair: clear screen, cursor home. -/
theorem C6_fail_fast (o : Oracle) (p : Bool) (buf : List ℕ) (st : LoopState) (i : ℕ)
    (r : CifarRecord) (rest : List CifarRecord) (e : ℕ) :
    (∀ evs, loadInputLoop o i r.red r.green r.blue (channel_mean r.red) (channel_mean r.green)
        (channel_mean r.blue) CIFAR_PIXELS_SIZE 0 [] = (some e, evs) →
      runLoop o p (r :: rest) i st = (some e, { st with events := st.events ++ evs })) ∧
    (∀ evs, loadInputLoop o i r.red r.green r.blue (channel_mean r.red) (channel_mean r.green)
        (channel_mean r.blue) CIFAR_PIXELS_SIZE 0 [] = (none, evs) →
      o.stopwatchStart i = none → o.runModel i = some e →
      runLoop o p (r :: rest) i st = (some e, { st with
        events := st.events ++ evs ++ [DriverEvent.stopwatchStart i, DriverEvent.runModel i] })) ∧
    (∀ evs, loadInputLoop o i r.red r.green r.blue (channel_mean r.red) (channel_mean r.green)
        (channel_mean r.blue) CIFAR_PIXELS_SIZE 0 [] = (none, evs) →
      o.stopwatchStart i = none → o.runModel i = none → o.getOutput i = Except.error e →
      runLoop o p (r :: rest) i st = (some e, { st with
        total_seconds := st.total_seconds + o.elapsedSeconds i,
        events := st.events ++ evs ++ [DriverEvent.stopwatchStart i, DriverEvent.runModel i,
          DriverEvent.stopwatchStop i, DriverEvent.getOutput i] })) ∧
    ((test_resnet20v2_on_cifar o buf p).error = some e →
      summaryLine (test_resnet20v2_on_cifar o buf p) = none) ∧
    (∃ ops, (test_resnet20v2_on_cifar o buf true).consoleOps =
      ops ++ [ConsoleOp.clearScreen, ConsoleOp.setCursorPosition 1 1]) := by
  refine ⟨?_, ?_, ?_, ?_, ?_⟩
  · intro evs hl
    exact runLoop_cons_loadfail o p i st r rest e evs hl
  · intro evs hl hsw hrun
    exact runLoop_cons_runfail o p i st r rest e evs hl hsw hrun
  · intro evs hl hsw hrun hout
    exact runLoop_cons_outfail o p i st r rest e evs hl hsw hrun hout
  · intro h
    simp [summaryLine, h]
  · exact ⟨_, rfl⟩

theorem C6_witness :
    runLoop failingLoadOracle false [sampleRecord] 0 emptyState =
      (some 5, { emptyState with
        events := emptyState.events ++ [DriverEvent.loadInput 0 0] }) :=
  (C6_fail_fast failingLoadOracle false [] emptyState 0 sampleRecord [] 5).1
    [DriverEvent.loadInput 0 0] rfl

/-- C7: for every run in which all driver and stopwatch calls succeed, the
benchmark completes without error, the accumulated time equals the SUM of
the per-image elapsed intervals, and the summary line reports accuracy
`1 − misclassified/total` and mean throughput `total / cumulativeSeconds`
(image count divided by the summed elapsed time — not an average of
per-image instantaneous fps values; see the witness for the
`[0.1 s, 0.2 s] ↦ 2/0.3 fps` instance). -/
theorem C7_summary_statistics (o : Oracle) (buf : List ℕ) (p : Bool)
    (hload : ∀ i j v, o.loadInput i j v = none)
    (hsw : ∀ i, o.stopwatchStart i = none)
    (hrun : ∀ i, o.runModel i = none)
    (hout : ∀ i, ∃ f, o.getOutput i = Except.ok f)
    (hprint : ∀ i, o.printOutputVectors i = none) :
    (test_resnet20v2_on_cifar o buf p).error = none ∧
    (test_resnet20v2_on_cifar o buf p).total_seconds =
      ((List.range (buf.length / 3073)).map o.elapsedSeconds).sum ∧
    summaryLine (test_resnet20v2_on_cifar o buf p) =
      some (buf.length / 3073,
        1 - ((test_resnet20v2_on_cifar o buf p).misclass_count : ℚ) /
          ((buf.length / 3073 : ℕ) : ℚ),
        ((buf.length / 3073 : ℕ) : ℚ) /
          ((List.range (buf.length / 3073)).map o.elapsedSeconds).sum) := by
  have hq : CIFAR_PIXELS_SIZE * 3 + 1 = 3073 := by norm_num [CIFAR_PIXELS_SIZE]
  obtain ⟨h1, h2⟩ := runLoop_all_success o p hload hsw hrun hout hprint
    (decodeRecords (buf.length / (CIFAR_PIXELS_SIZE * 3 + 1)) buf) 0
    { misclass_count := 0, total_seconds := 0,
      consoleOps := if p then [ConsoleOp.clearScreen] else [], events := [], trace := [] }
  rw [decodeRecords_length] at h2
  have h3 : ((List.range (buf.length / (CIFAR_PIXELS_SIZE * 3 + 1))).map
      fun k => o.elapsedSeconds (0 + k)).sum =
      ((List.range (buf.length / 3073)).map o.elapsedSeconds).sum := by
    rw [hq]
    have hf : (fun k => o.elapsedSeconds (0 + k)) = o.elapsedSeconds := by
      funext k
      rw [Nat.zero_add]
    rw [hf]
  simp only at h2
  rw [zero_add, h3] at h2
  have herr : (test_resnet20v2_on_cifar o buf p).error = none := by
    unfold test_resnet20v2_on_cifar
    simp only
    exact h1
  have hsec : (test_resnet20v2_on_cifar o buf p).total_seconds =
      ((List.range (buf.length / 3073)).map o.elapsedSeconds).sum := by
    unfold test_resnet20v2_on_cifar
    simp only
    exact h2
  refine ⟨herr, hsec, ?_⟩
  unfold summaryLine
  rw [herr, hsec]
  rfl

theorem C7_witness :
    summaryLine (test_resnet20v2_on_cifar timedOracle (List.replicate 6146 0) false) =
      some (2,
        1 - ((test_resnet20v2_on_cifar timedOracle
          (List.replicate 6146 0) false).misclass_count : ℚ) / 2,
        (20 : ℚ) / 3) ∧
    (20 : ℚ) / 3 ≠ (10 + 5) / 2 := by
  refine ⟨?_, by norm_num⟩
  obtain ⟨h1, h2, h3⟩ := C7_summary_statistics timedOracle (List.replicate 6146 0) false
    (fun _ _ _ => rfl) (fun _ => rfl) (fun _ => rfl) (fun i => ⟨fun _ => 0, rfl⟩) (fun _ => rfl)
  have hlen : (List.replicate 6146 (0 : ℕ)).length / 3073 = 2 := by
    rw [List.length_replicate]
  have hsum : ((List.range 2).map timedOracle.elapsedSeconds).sum = 3 / 10 := by
    norm_num [timedOracle, List.range_succ]
  rw [hlen, hsum] at h3
  rw [h3]
  norm_num

/-- C8: the stopwatch interval brackets exactly the execution call.  For a
successful image, the loop's step appends — after the staging events, all of
which are `loadInput` calls — the contiguous block `stopwatchStart i,
runModel i, stopwatchStop i`: the timer starts immediately before the
execution call and stops immediately after it returns, output retrieval
(`getOutput`) comes strictly after the stop, and the elapsed interval is
accumulated exactly once per image.  If the execution call fails, no
`stopwatchStop` is issued and no time is accumulated, so at most one
interval per image ever reaches the statistics and at most one interval is
open at any time. -/
theorem C8_timing (o : Oracle) (p : Bool) (i : ℕ) (st : LoopState) (r : CifarRecord)
    (rest : List CifarRecord) (evs : List DriverEvent)
    (hl : loadInputLoop o i r.red r.green r.blue (channel_mean r.red) (channel_mean r.green)
        (channel_mean r.blue) CIFAR_PIXELS_SIZE 0 [] = (none, evs))
    (hsw : o.stopwatchStart i = none) :
    (∀ (result : Fin CIFAR_CLASSES_SIZE → ℚ), o.runModel i = none →
      o.getOutput i = Except.ok result → (p = true → o.printOutputVectors i = none) →
      runLoop o p (r :: rest) i st = runLoop o p rest (i + 1) (stepState o p i st r result) ∧
      (stepState o p i st r result).events =
        st.events ++ evs ++ [DriverEvent.stopwatchStart i, DriverEvent.runModel i,
          DriverEvent.stopwatchStop i, DriverEvent.getOutput i] ++
        (if p then (reportImage o i (o.elapsedSeconds i) r.red r.green r.blue r.label
            (argmax (List.ofFn result))).2.2 else []) ∧
      (stepState o p i st r result).total_seconds = st.total_seconds + o.elapsedSeconds i) ∧
    (∀ e, o.runModel i = some e →
      runLoop o p (r :: rest) i st = (some e, { st with
        events := st.events ++ evs ++ [DriverEvent.stopwatchStart i,
          DriverEvent.runModel i] })) ∧
    (∀ ev ∈ evs, ∃ jj, ev = DriverEvent.loadInput i jj) := by
  refine ⟨?_, ?_, ?_⟩
  · intro result hrun hout hp
    refine ⟨runLoop_cons_success o p i st r rest evs result hl hsw hrun hout hp, ?_, ?_⟩
    · simp only [stepState, hl]
    · simp only [stepState]
  · intro e hrun
    exact runLoop_cons_runfail o p i st r rest e evs hl hsw hrun
  · intro ev hev
    have h := loadInputLoop_events o i r.red r.green r.blue (channel_mean r.red)
      (channel_mean r.green) (channel_mean r.blue) CIFAR_PIXELS_SIZE 0 [] ev
      (by rw [hl]; exact hev)
    rcases h with h | h
    · exact absurd h (List.not_mem_nil ev)
    · exact h

theorem C8_witness :
    runLoop timedOracle false [sampleRecord] 0 emptyState =
      runLoop timedOracle false [] 1
        (stepState timedOracle false 0 emptyState sampleRecord fun _ => 0) := by
  have hfst := loadInputLoop_fst_none timedOracle 0 sampleRecord.red sampleRecord.green
    sampleRecord.blue (channel_mean sampleRecord.red) (channel_mean sampleRecord.green)
    (channel_mean sampleRecord.blue) (fun _ _ => rfl) CIFAR_PIXELS_SIZE 0 []
  exact ((C8_timing timedOracle false 0 emptyState sampleRecord [] _
      (Prod.ext hfst rfl) rfl).1 (fun _ => 0) rfl rfl (fun hE => nomatch hE)).1

/-- C9 counterexample: the claim quantifies over every accelerator
behaviour, but the reporter itself performs a fallible driver call
(`tensil_driver_print_model_output_vectors`, line 174).  With a driver whose
diagnostic print call fails (error 9) while every other call succeeds, a
one-record run aborts with error 9 when live reporting is enabled and
completes without error when it is disabled — the two runs differ in their
success/failure outcome, refuting the claim as stated. -/
theorem C9_counterexample :
    (test_resnet20v2_on_cifar failingPrintOracle (List.replicate 3073 0) true).error = some 9 ∧
    (test_resnet20v2_on_cifar failingPrintOracle (List.replicate 3073 0) false).error = none := by
  have hlen : (List.replicate 3073 (0 : ℕ)).length / (CIFAR_PIXELS_SIZE * 3 + 1) = 1 := by
    rw [List.length_replicate]
    norm_num [CIFAR_PIXELS_SIZE]
  have hrecs : decodeRecords ((List.replicate 3073 (0 : ℕ)).length / (CIFAR_PIXELS_SIZE * 3 + 1))
      (List.replicate 3073 0) = [readRecord (List.replicate 3073 0)] := by
    rw [hlen]
    rfl
  have hfst := loadInputLoop_fst_none failingPrintOracle 0
    (readRecord (List.replicate 3073 0)).red (readRecord (List.replicate 3073 0)).green
    (readRecord (List.replicate 3073 0)).blue
    (channel_mean (readRecord (List.replicate 3073 0)).red)
    (channel_mean (readRecord (List.replicate 3073 0)).green)
    (channel_mean (readRecord (List.replicate 3073 0)).blue)
    (fun _ _ => rfl) CIFAR_PIXELS_SIZE 0 []
  constructor
  · have h1 := runLoop_cons_printfail failingPrintOracle 0
      { misclass_count := 0, total_seconds := 0,
        consoleOps := if true then [ConsoleOp.clearScreen] else [], events := [], trace := [] }
      (readRecord (List.replicate 3073 0)) [] 9 _ (fun _ => 0)
      (Prod.ext hfst rfl) rfl rfl rfl (by norm_num) rfl
    unfold test_resnet20v2_on_cifar
    simp only
    rw [hrecs]
    exact h1
  · have h2 := runLoop_cons_success failingPrintOracle false 0
      { misclass_count := 0, total_seconds := 0,
        consoleOps := if false then [ConsoleOp.clearScreen] else [], events := [], trace := [] }
      (readRecord (List.replicate 3073 0)) [] _ (fun _ => 0)
      (Prod.ext hfst rfl) rfl rfl rfl (fun hE => nomatch hE)
    unfold test_resnet20v2_on_cifar
    simp only
    rw [hrecs, h2, runLoop_nil]

/-- C9 (amended): provided the reporter's diagnostic driver print call never
fails, two runs differing only in `print_images` produce identical benchmark
results — the same error outcome, record count, misclassification count,
cumulative time, per-image prediction trace, and summary line (hence the
same accuracy and throughput).  The reporter only adds console output; it
performs no computation affecting the statistics. -/
theorem C9_reporter_observational (o : Oracle) (buf : List ℕ)
    (hprint : ∀ i, o.printOutputVectors i = none) :
    (test_resnet20v2_on_cifar o buf true).error =
      (test_resnet20v2_on_cifar o buf false).error ∧
    (test_resnet20v2_on_cifar o buf true).total_count =
      (test_resnet20v2_on_cifar o buf false).total_count ∧
    (test_resnet20v2_on_cifar o buf true).misclass_count =
      (test_resnet20v2_on_cifar o buf false).misclass_count ∧
    (test_resnet20v2_on_cifar o buf true).total_seconds =
      (test_resnet20v2_on_cifar o buf false).total_seconds ∧
    (test_resnet20v2_on_cifar o buf true).trace =
      (test_resnet20v2_on_cifar o buf false).trace ∧
    summaryLine (test_resnet20v2_on_cifar o buf true) =
      summaryLine (test_resnet20v2_on_cifar o buf false) := by
  obtain ⟨h1, h2, h3, h4⟩ := runLoop_print_agnostic o hprint
    (decodeRecords (buf.length / (CIFAR_PIXELS_SIZE * 3 + 1)) buf) 0
    { misclass_count := 0, total_seconds := 0,
      consoleOps := if true then [ConsoleOp.clearScreen] else [], events := [], trace := [] }
    { misclass_count := 0, total_seconds := 0,
      consoleOps := if false then [ConsoleOp.clearScreen] else [], events := [], trace := [] }
    rfl rfl rfl
  have he : (test_resnet20v2_on_cifar o buf true).error =
      (test_resnet20v2_on_cifar o buf false).error := by
    unfold test_resnet20v2_on_cifar
    simp only
    exact h1
  have hm : (test_resnet20v2_on_cifar o buf true).misclass_count =
      (test_resnet20v2_on_cifar o buf false).misclass_count := by
    unfold test_resnet20v2_on_cifar
    simp only
    exact h2
  have hs : (test_resnet20v2_on_cifar o buf true).total_seconds =
      (test_resnet20v2_on_cifar o buf false).total_seconds := by
    unfold test_resnet20v2_on_cifar
    simp only
    exact h3
  have ht : (test_resnet20v2_on_cifar o buf true).trace =
      (test_resnet20v2_on_cifar o buf false).trace := by
    unfold test_resnet20v2_on_cifar
    simp only
    exact h4
  refine ⟨he, rfl, hm, hs, ht, ?_⟩
  unfold summaryLine
  rw [he, hm, hs]
  rfl

theorem C9_witness :
    (test_resnet20v2_on_cifar timedOracle [] true).error =
      (test_resnet20v2_on_cifar timedOracle [] false).error :=
  (C9_reporter_observational timedOracle [] (fun _ => rfl)).1

/-- A record carrying the out-of-domain label 77 (byte values above 9 are
possible in a malformed dataset file; nothing validates them). -/
def badRecord : CifarRecord :=
  { label := 77
    red := List.replicate 1024 0
    green := List.replicate 1024 0
    blue := List.replicate 1024 0 }

/-- C10: the label byte is never validated against the class domain
`[0, 10)`.  The decoder takes the label verbatim from the buffer; for a
record whose label is 10 or more, the prediction (always `< 10`) can never
equal it, so the misclassification comparison still uses the raw label as
ground truth and unconditionally counts the image as misclassified while
the loop continues without error; and when live reporting is active on a
multiple-of-100 image, the class line indexes the 10-entry `cifar_classes`
table with that out-of-range label — an out-of-bounds access (`none`) —
rather than raising any error. -/
theorem C10_label_unvalidated (o : Oracle) (p : Bool) (i : ℕ) (st : LoopState)
    (r : CifarRecord) (rest : List CifarRecord) (evs : List DriverEvent)
    (result : Fin CIFAR_CLASSES_SIZE → ℚ)
    (hlabel : 10 ≤ r.label)
    (hl : loadInputLoop o i r.red r.green r.blue (channel_mean r.red) (channel_mean r.green)
        (channel_mean r.blue) CIFAR_PIXELS_SIZE 0 [] = (none, evs))
    (hsw : o.stopwatchStart i = none) (hrun : o.runModel i = none)
    (hout : o.getOutput i = Except.ok result)
    (hp : p = true → o.printOutputVectors i = none) :
    (∀ b : List ℕ, (readRecord b).label = b.getD 0 0) ∧
    runLoop o p (r :: rest) i st = runLoop o p rest (i + 1) (stepState o p i st r result) ∧
    (stepState o p i st r result).misclass_count = st.misclass_count + 1 ∧
    cifar_classes[r.label]? = none ∧
    (i % 100 = 0 → o.printOutputVectors i = none →
      ConsoleOp.printClassLine r.label (argmax (List.ofFn result)) none
          cifar_classes[argmax (List.ofFn result)]? ∈
        (reportImage o i (o.elapsedSeconds i) r.red r.green r.blue r.label
          (argmax (List.ofFn result))).2.1) := by
  have hnone : cifar_classes[r.label]? = none := by
    apply List.getElem?_eq_none
    simpa [cifar_classes] using hlabel
  have hlofn : (List.ofFn result).length = 10 := by
    simp [CIFAR_CLASSES_SIZE]
  have hlt : argmax (List.ofFn result) < 10 := by
    have hne : List.ofFn result ≠ [] := by
      intro hE
      rw [hE] at hlofn
      simp at hlofn
    have h := (argmax_firstMax (List.ofFn result) hne).1
    omega
  refine ⟨fun b => rfl,
    runLoop_cons_success o p i st r rest evs result hl hsw hrun hout hp, ?_, hnone, ?_⟩
  · have hne2 : argmax (List.ofFn result) ≠ r.label := by omega
    simp only [stepState]
    rw [if_pos hne2]
  · intro h100 hpr
    have hmem := reportImage_classLine o i (o.elapsedSeconds i) r.red r.green r.blue r.label
      (argmax (List.ofFn result)) h100 hpr
    rwa [hnone] at hmem

theorem C10_witness :
    (stepState timedOracle false 0 emptyState badRecord fun _ => 0).misclass_count =
      emptyState.misclass_count + 1 ∧
    cifar_classes[badRecord.label]? = none := by
  have hfst := loadInputLoop_fst_none timedOracle 0 badRecord.red badRecord.green badRecord.blue
    (channel_mean badRecord.red) (channel_mean badRecord.green) (channel_mean badRecord.blue)
    (fun _ _ => rfl) CIFAR_PIXELS_SIZE 0 []
  have h := C10_label_unvalidated timedOracle false 0 emptyState badRecord [] _ (fun _ => 0)
    (by norm_num [badRecord]) (Prod.ext hfst rfl) rfl rfl rfl (fun hE => nomatch hE)
  exact ⟨h.2.2.1, h.2.2.2.1⟩
